import Mathlib

/-!
Verification of the budget-cycle computation engine of the expense-tracker
backend (`backend/app/services/analytics.py`).

Dates are embedded as proleptic-Gregorian rata-die day numbers (`Int`, with
0001-01-01 = day 1), exactly the ordinal model underlying Python `datetime.date`
(`date.toordinal`).  `timedelta(days = n)` is addition of `n`, `d1 - d2` is
rata-die subtraction, and `date.weekday()` (Monday = 0 … Sunday = 6) is
`(rd - 1) % 7`.  Python `//` and `%` on these quantities only ever occur with
positive divisors, where they agree with Lean's `Int` division and modulus used
below.  Monetary amounts (Python floats used only for exact-decimal bank
amounts) are embedded as `Rat`, so that the arithmetic of the aggregation
claims is exact.
-/

/-- Gregorian leap-year rule, as implemented by Python `datetime`. -/
def isLeapYear (y : Int) : Prop := (y % 4 = 0 ∧ y % 100 ≠ 0) ∨ y % 400 = 0

instance (y : Int) : Decidable (isLeapYear y) := by
  unfold isLeapYear
  infer_instance

/-- Number of days of month `m` of year `y` (Python `calendar`/`datetime`). -/
def daysInMonth (y m : Int) : Int :=
  if m = 2 then (if isLeapYear y then 29 else 28)
  else if m = 4 ∨ m = 6 ∨ m = 9 ∨ m = 11 then 30
  else 31

/-- Days of year `y` occurring strictly before month `m` (1 ≤ m ≤ 12). -/
def daysBeforeMonth (y m : Int) : Int :=
  let L : Int := if isLeapYear y then 1 else 0
  if m = 1 then 0
  else if m = 2 then 31
  else if m = 3 then 59 + L
  else if m = 4 then 90 + L
  else if m = 5 then 120 + L
  else if m = 6 then 151 + L
  else if m = 7 then 181 + L
  else if m = 8 then 212 + L
  else if m = 9 then 243 + L
  else if m = 10 then 273 + L
  else if m = 11 then 304 + L
  else 334 + L

/-- Rata-die day number of the Gregorian date `(y, m, d)`:
`date(y, m, d).toordinal()` in Python. -/
def toRD (y m d : Int) : Int :=
  365 * (y - 1) + (y - 1) / 4 - (y - 1) / 100 + (y - 1) / 400
    + daysBeforeMonth y m + d

/-- Python `date.weekday()`: Monday = 0 … Sunday = 6. -/
def pyWeekday (rd : Int) : Int := (rd - 1) % 7

/-- `get_adjusted_payday(year, month, salary_day)` from `analytics.py`:
`date(year, month, salary_day)` raises `ValueError` when `salary_day` is not a
valid day of that month, in which case the code falls back to the last day of
the month (`date(year, month + 1, 1) - timedelta(days = 1)`, with the December
wrap); then a Saturday is moved back one day and a Sunday two days. -/
def get_adjusted_payday (year month salary_day : Int) : Int :=
  let base_date : Int :=
    if 1 ≤ salary_day ∧ salary_day ≤ daysInMonth year month then
      toRD year month salary_day
    else
      if month = 12 then toRD (year + 1) 1 1 - 1
      else toRD year (month + 1) 1 - 1
  let weekday := pyWeekday base_date
  if weekday = 5 then base_date - 1
  else if weekday = 6 then base_date - 2
  else base_date

/-- `get_theoretical_cycle_dates(salary_day, offset)` from `analytics.py`.
`date.today()` is passed in explicitly as the triple `(ty, tm, td)`. -/
def get_theoretical_cycle_dates (salary_day offset ty tm td : Int) : Int × Int :=
  let today := toRD ty tm td
  let this_month_payday := get_adjusted_payday ty tm salary_day
  let anchor_month : Int :=
    if today ≥ this_month_payday then tm else (if tm = 1 then 12 else tm - 1)
  let anchor_year : Int :=
    if today ≥ this_month_payday then ty else (if tm = 1 then ty - 1 else ty)
  let total_months_linear := anchor_year * 12 + (anchor_month - 1)
  let target_total_months := total_months_linear - offset
  let target_year := target_total_months / 12
  let target_month := target_total_months % 12 + 1
  let start_date := get_adjusted_payday target_year target_month salary_day
  let next_total := target_total_months + 1
  let next_y := next_total / 12
  let next_m := next_total % 12 + 1
  let next_start := get_adjusted_payday next_y next_m salary_day
  (start_date, next_start - 1)

/-! ## Transaction store and the early-salary guard -/

/-- A stored transaction, with the columns used by the analytics queries
(`models.Transaction` joined with `models.Category`).  `txn_date` is a
rata-die day number; `payment_type` is the raw stored string. -/
structure Txn where
  amount : Rat
  txn_date : Int
  payment_type : String
  merchant_name : String
  category_name : String
  category_color : String
deriving DecidableEq

/-- Python `str.upper()` restricted to the ASCII payment-type strings used by
the code (`String.map Char.toUpper`, expressed over the character list so that
concrete instances evaluate). -/
def pyUpper (s : String) : String := String.mk (s.data.map Char.toUpper)

/-- The minimum of a list of dates: the result of `ORDER BY txn_date ASC
LIMIT 1` over rows with these dates. -/
def minDate : List Int → Option Int
  | [] => none
  | d :: ds =>
    match minDate ds with
    | none => some d
    | some m => some (min d m)

/-- Row filter of the `SELECT` inside `get_secure_cycle_dates`: date within
`[scan_start, end_date]`, `payment_type == 'credit'` (exact lowercase match in
the SQL equality), and category name in `income_list`. -/
def earlySalaryMatch (income_list : List String) (scan_start end_date : Int)
    (t : Txn) : Bool :=
  decide (scan_start ≤ t.txn_date) && decide (t.txn_date ≤ end_date)
    && (t.payment_type == "credit") && decide (t.category_name ∈ income_list)

/-- The date returned by the early-salary query of `get_secure_cycle_dates`
(first matching row in ascending date order), over an explicit store. -/
def earlySalaryScan (store : List Txn) (income_list : List String)
    (scan_start end_date : Int) : Option Int :=
  minDate ((store.filter (earlySalaryMatch income_list scan_start end_date)).map
    (fun t => t.txn_date))

/-- The scan-and-snap step of `get_secure_cycle_dates`: look for an early
salary in the last 10 days of the cycle and, if one is found more than 5 days
after `start_date`, snap `end_date` to the day before it. -/
def snapEnd (store : List Txn) (income_list : List String)
    (start_date end_date : Int) : Int :=
  match earlySalaryScan store income_list (end_date - 10) end_date with
  | some early_salary_date =>
      if early_salary_date > start_date + 5 then early_salary_date - 1
      else end_date
  | none => end_date

/-- `get_secure_cycle_dates(db, salary_day, offset, income_list)` from
`analytics.py`, over an explicit transaction store and explicit today. -/
def get_secure_cycle_dates (store : List Txn) (salary_day offset : Int)
    (income_list : List String) (ty tm td : Int) : Int × Int :=
  let se := get_theoretical_cycle_dates salary_day offset ty tm td
  if income_list = [] then se
  else (se.1, snapEnd store income_list se.1 se.2)

/-! ## The aggregator -/

/-- Read the value stored under key `k` in a day-indexed map,
`daily_trend.get(k, 0)` in Python. -/
def trendGet : List (Int × Rat) → Int → Rat
  | [], _ => 0
  | p :: ps, k => if p.1 = k then p.2 else trendGet ps k

/-- `daily_trend[k] = daily_trend.get(k, 0) + a`: update the (unique) entry
for `k` in place, or append a new entry at the end, exactly the effect of the
assignment on an insertion-ordered Python dict. -/
def trendAdd : List (Int × Rat) → Int → Rat → List (Int × Rat)
  | [], k, a => [(k, a)]
  | p :: ps, k, a => if p.1 = k then (p.1, p.2 + a) :: ps else p :: trendAdd ps k a

/-- Sum of all values of a day-indexed map. -/
def sumValues (m : List (Int × Rat)) : Rat := (m.map Prod.snd).sum

/-- Look up a category bucket: `category_map[name]` as `(value, color)`. -/
def catFind : List (String × Rat × String) → String → Option (Rat × String)
  | [], _ => none
  | p :: ps, name => if p.1 = name then some p.2 else catFind ps name

/-- The DEBIT branch on the category map: create the bucket with value `0.0`
and the transaction's color if absent, then add `amount` to its value. -/
def catAddDebit : List (String × Rat × String) → String → Rat → String →
    List (String × Rat × String)
  | [], name, a, color => [(name, a, color)]
  | p :: ps, name, a, color =>
    if p.1 = name then (p.1, p.2.1 + a, p.2.2) :: ps
    else p :: catAddDebit ps name a color

/-- The CREDIT branch on the category map: subtract `amount` from the bucket
only when the bucket already exists (`if cat_name in category_map`). -/
def catSubCredit : List (String × Rat × String) → String → Rat →
    List (String × Rat × String)
  | [], _, _ => []
  | p :: ps, name, a =>
    if p.1 = name then (p.1, p.2.1 - a, p.2.2) :: ps
    else p :: catSubCredit ps name a

/-- The running state of `_process_transaction_aggregates`. -/
structure AggState where
  total_spend : Rat
  total_income : Rat
  category_map : List (String × Rat × String)
  daily_trend : List (Int × Rat)
deriving DecidableEq

/-- One iteration of the loop body of `_process_transaction_aggregates`. -/
def processTxn (cycle_start : Int) (ignored_cats income_cats : List String)
    (st : AggState) (txn : Txn) : AggState :=
  let amount := txn.amount
  let p_type := if txn.payment_type = "" then "UNKNOWN" else pyUpper txn.payment_type
  let cat_name := txn.category_name
  if cat_name ∈ ignored_cats then st
  else if cat_name ∈ income_cats then
    if p_type = "CREDIT" then { st with total_income := st.total_income + amount }
    else if p_type = "DEBIT" then { st with total_income := st.total_income - amount }
    else st
  else
    let day_idx := (txn.txn_date - cycle_start) + 1
    if p_type = "DEBIT" then
      { st with
        total_spend := st.total_spend + amount
        category_map := catAddDebit st.category_map cat_name amount txn.category_color
        daily_trend := trendAdd st.daily_trend day_idx amount }
    else if p_type = "CREDIT" then
      { st with
        total_spend := st.total_spend - amount
        category_map := catSubCredit st.category_map cat_name amount
        daily_trend := trendAdd st.daily_trend day_idx (-amount) }
    else st

/-- `_process_transaction_aggregates(transactions, cycle_start, ignored_cats,
income_cats)` from `analytics.py`. -/
def _process_transaction_aggregates (transactions : List Txn) (cycle_start : Int)
    (ignored_cats income_cats : List String) : AggState :=
  transactions.foldl (processTxn cycle_start ignored_cats income_cats)
    ⟨0, 0, [], []⟩

/-! ## Health-report formulas -/

/-- `_calculate_burn_rate_status(total_spend, budget_limit, days_passed,
days_in_cycle)` from `analytics.py`. -/
def _calculate_burn_rate_status (total_spend budget_limit : Rat)
    (days_passed days_in_cycle : Int) : String :=
  if budget_limit ≤ 0 then "On Track"
  else
    let budget_remaining := budget_limit - total_spend
    if budget_remaining < 0 then "Over Budget"
    else if days_in_cycle ≤ 0 ∨ days_passed ≤ 0 then "On Track"
    else
      let budget_used_pct := total_spend / budget_limit * 100
      let time_passed_pct := ((days_passed : Rat) / (days_in_cycle : Rat)) * 100
      if budget_used_pct > time_passed_pct + 15 then "High Burn"
      else if budget_used_pct > time_passed_pct + 5 then "Caution"
      else "On Track"

/-- `days_left = max(0, days_in_cycle - days_passed)` from
`calculate_financial_health`. -/
def days_left_calc (days_in_cycle days_passed : Int) : Int :=
  max 0 (days_in_cycle - days_passed)

/-- `safe_daily = budget_remaining / days_left if days_left > 0 and
budget_remaining > 0 else 0.0` from `calculate_financial_health` (the value
before the 2-decimal display rounding). -/
def safe_to_spend_daily (budget_remaining : Rat) (days_left : Int) : Rat :=
  if days_left > 0 ∧ budget_remaining > 0 then budget_remaining / (days_left : Rat)
  else 0

/-- `projected_spend`: the expression
`(total_spend / days_passed) * days_in_cycle if days_passed > 0 and
days_in_cycle > 0 else 0` from `calculate_financial_health` (the value before
the 2-decimal display rounding). -/
def projected_spend_calc (total_spend : Rat) (days_passed days_in_cycle : Int) : Rat :=
  if days_passed > 0 ∧ days_in_cycle > 0 then
    total_spend / (days_passed : Rat) * (days_in_cycle : Rat)
  else 0

/-! ## Calendar lemmas -/

theorem daysInMonth_bounds (y m : Int) : 28 ≤ daysInMonth y m ∧ daysInMonth y m ≤ 31 := by
  unfold daysInMonth
  split_ifs <;> omega

theorem daysBeforeMonth_succ (y m : Int) (h1 : 1 ≤ m) (h2 : m ≤ 11) :
    daysBeforeMonth y (m + 1) = daysBeforeMonth y m + daysInMonth y m := by
  interval_cases m <;> simp only [daysBeforeMonth, daysInMonth] <;> norm_num <;>
    split_ifs <;> omega

theorem toRD_year_succ (y : Int) : toRD (y + 1) 1 1 = toRD y 12 (daysInMonth y 12) + 1 := by
  have h31 : daysInMonth y 12 = 31 := by norm_num [daysInMonth]
  rw [h31]
  simp only [toRD, daysBeforeMonth, isLeapYear]
  norm_num
  split_ifs <;> omega

theorem toRD_next_month (y m : Int) (h1 : 1 ≤ m) (h2 : m ≤ 12) :
    (if m = 12 then toRD (y + 1) 1 1 else toRD y (m + 1) 1)
      = toRD y m (daysInMonth y m) + 1 := by
  by_cases hm : m = 12
  · subst hm
    simpa using toRD_year_succ y
  · rw [if_neg hm]
    have hs := daysBeforeMonth_succ y m h1 (by omega)
    simp only [toRD]
    omega

theorem toRD_linear_succ (T : Int) :
    toRD ((T + 1) / 12) ((T + 1) % 12 + 1) 1
      = toRD (T / 12) (T % 12 + 1) (daysInMonth (T / 12) (T % 12 + 1)) + 1 := by
  by_cases hr : T % 12 ≤ 10
  · have e1 : (T + 1) / 12 = T / 12 := by omega
    have e2 : (T + 1) % 12 = T % 12 + 1 := by omega
    rw [e1, e2]
    have hs := daysBeforeMonth_succ (T / 12) (T % 12 + 1) (by omega) (by omega)
    simp only [toRD]
    omega
  · have e1 : (T + 1) / 12 = T / 12 + 1 := by omega
    have e2 : (T + 1) % 12 = 0 := by omega
    have e3 : T % 12 = 11 := by omega
    rw [e1, e2, e3]
    norm_num
    exact toRD_year_succ (T / 12)

theorem get_adjusted_payday_bounds (y m sd : Int) (h1 : 1 ≤ m) (h2 : m ≤ 12)
    (h3 : 1 ≤ sd) :
    toRD y m (min sd (daysInMonth y m)) - 2 ≤ get_adjusted_payday y m sd ∧
    get_adjusted_payday y m sd ≤ toRD y m (min sd (daysInMonth y m)) := by
  have hnext := toRD_next_month y m h1 h2
  have hbase :
      (if 1 ≤ sd ∧ sd ≤ daysInMonth y m then toRD y m sd
       else if m = 12 then toRD (y + 1) 1 1 - 1 else toRD y (m + 1) 1 - 1)
        = toRD y m (min sd (daysInMonth y m)) := by
    by_cases hv : 1 ≤ sd ∧ sd ≤ daysInMonth y m
    · rw [if_pos hv, min_eq_left hv.2]
    · have hgt : daysInMonth y m < sd := by omega
      rw [if_neg hv, min_eq_right (le_of_lt hgt)]
      by_cases hm : m = 12
      · rw [if_pos hm]
        rw [if_pos hm] at hnext
        omega
      · rw [if_neg hm]
        rw [if_neg hm] at hnext
        omega
  simp only [get_adjusted_payday, pyWeekday]
  rw [hbase]
  split_ifs <;> omega

theorem payday_gap (sd T : Int) (h1 : 1 ≤ sd) :
    get_adjusted_payday (T / 12) (T % 12 + 1) sd + 7
      ≤ get_adjusted_payday ((T + 1) / 12) ((T + 1) % 12 + 1) sd := by
  have b1 := get_adjusted_payday_bounds (T / 12) (T % 12 + 1) sd (by omega) (by omega) h1
  have b2 := get_adjusted_payday_bounds ((T + 1) / 12) ((T + 1) % 12 + 1) sd
    (by omega) (by omega) h1
  have hsucc := toRD_linear_succ T
  have d1 := daysInMonth_bounds (T / 12) (T % 12 + 1)
  have d2 := daysInMonth_bounds ((T + 1) / 12) ((T + 1) % 12 + 1)
  simp only [toRD] at b1 b2 hsucc
  omega

/-! ## Aggregator lemmas -/

theorem sumValues_trendAdd (m : List (Int × Rat)) (k : Int) (a : Rat) :
    sumValues (trendAdd m k a) = sumValues m + a := by
  induction m with
  | nil => simp [trendAdd, sumValues]
  | cons p ps ih =>
    by_cases h : p.1 = k
    · simp only [trendAdd, if_pos h, sumValues, List.map_cons, List.sum_cons]
      ring
    · simp only [trendAdd, if_neg h, sumValues, List.map_cons, List.sum_cons] at ih ⊢
      rw [ih]
      ring

theorem trendGet_trendAdd_self (m : List (Int × Rat)) (k : Int) (a : Rat) :
    trendGet (trendAdd m k a) k = trendGet m k + a := by
  induction m with
  | nil => simp [trendAdd, trendGet]
  | cons p ps ih =>
    by_cases h : p.1 = k
    · simp [trendAdd, h, trendGet]
    · simp [trendAdd, h, trendGet, ih]

theorem catFind_catSubCredit_self (m : List (String × Rat × String)) (name : String)
    (a : Rat) :
    catFind (catSubCredit m name a) name
      = (catFind m name).map (fun p => (p.1 - a, p.2)) := by
  induction m with
  | nil => simp [catSubCredit, catFind]
  | cons p ps ih =>
    by_cases h : p.1 = name
    · simp [catSubCredit, h, catFind]
    · simp [catSubCredit, h, catFind, ih]

theorem processTxn_spend_eq_sum (cycle_start : Int) (ignored income : List String)
    (st : AggState) (t : Txn) (h : st.total_spend = sumValues st.daily_trend) :
    (processTxn cycle_start ignored income st t).total_spend
      = sumValues (processTxn cycle_start ignored income st t).daily_trend := by
  simp only [processTxn]
  split_ifs <;> simp [sumValues_trendAdd, h] <;> ring

theorem foldl_spend_eq_sum (cycle_start : Int) (ignored income : List String)
    (l : List Txn) (st : AggState) (h : st.total_spend = sumValues st.daily_trend) :
    (l.foldl (processTxn cycle_start ignored income) st).total_spend
      = sumValues (l.foldl (processTxn cycle_start ignored income) st).daily_trend := by
  induction l generalizing st with
  | nil => simpa using h
  | cons t ts ih =>
    simp only [List.foldl_cons]
    exact ih _ (processTxn_spend_eq_sum cycle_start ignored income st t h)

theorem minDate_all_eq (l : List Int) (e : Int) (hne : l ≠ []) (hall : ∀ d ∈ l, d = e) :
    minDate l = some e := by
  induction l with
  | nil => exact absurd rfl hne
  | cons d ds ih =>
    have hd : d = e := hall d (List.mem_cons_self d ds)
    rcases ds with _ | ⟨d2, ds2⟩
    · simp [minDate, hd]
    · have hds : minDate (d2 :: ds2) = some e := by
        apply ih (by simp)
        intro x hx
        exact hall x (List.mem_cons_of_mem d hx)
      simp [minDate] at hds ⊢
      rw [hds, hd]
      simp

/-! ## Claims -/

/-- C3 (aggregation conservation): for every transaction list, every cycle
start and every choice of ignored/income categories, the `total_spend` returned
by `_process_transaction_aggregates` equals the sum of all values of the
returned day-indexed `daily_trend` map. -/
theorem C3_aggregation_conservation (transactions : List Txn) (cycle_start : Int)
    (ignored_cats income_cats : List String) :
    (_process_transaction_aggregates transactions cycle_start ignored_cats income_cats).total_spend
      = sumValues (_process_transaction_aggregates transactions cycle_start
          ignored_cats income_cats).daily_trend := by
  unfold _process_transaction_aggregates
  exact foldl_spend_eq_sum cycle_start ignored_cats income_cats transactions
    ⟨0, 0, [], []⟩ (by simp [sumValues])

/-- C8 (cycle non-overlap): for every salary day, every offset ≥ 0 and a
fixed today, the cycle of `offset + 1` ends exactly one day before the cycle of
`offset` starts, and the two date ranges are disjoint. -/
theorem C8_cycle_non_overlap (salary_day offset ty tm td : Int) (hoff : 0 ≤ offset) :
    (get_theoretical_cycle_dates salary_day (offset + 1) ty tm td).2
        = (get_theoretical_cycle_dates salary_day offset ty tm td).1 - 1 ∧
    ∀ x : Int,
      ¬((get_theoretical_cycle_dates salary_day (offset + 1) ty tm td).1 ≤ x ∧
        x ≤ (get_theoretical_cycle_dates salary_day (offset + 1) ty tm td).2 ∧
        (get_theoretical_cycle_dates salary_day offset ty tm td).1 ≤ x ∧
        x ≤ (get_theoretical_cycle_dates salary_day offset ty tm td).2) := by
  have key : (get_theoretical_cycle_dates salary_day (offset + 1) ty tm td).2
      = (get_theoretical_cycle_dates salary_day offset ty tm td).1 - 1 := by
    simp only [get_theoretical_cycle_dates]
    have e :
        (if toRD ty tm td ≥ get_adjusted_payday ty tm salary_day then ty
          else if tm = 1 then ty - 1 else ty) * 12 +
        ((if toRD ty tm td ≥ get_adjusted_payday ty tm salary_day then tm
          else if tm = 1 then 12 else tm - 1) - 1) - (offset + 1) + 1
        = (if toRD ty tm td ≥ get_adjusted_payday ty tm salary_day then ty
          else if tm = 1 then ty - 1 else ty) * 12 +
        ((if toRD ty tm td ≥ get_adjusted_payday ty tm salary_day then tm
          else if tm = 1 then 12 else tm - 1) - 1) - offset := by
      ring
    rw [e]
  refine ⟨key, fun x hx => ?_⟩
  rcases hx with ⟨_, h2, h3, _⟩
  rw [key] at h2
  omega

/-- Witness for C8 at salary_day 25, offset 0, today 2024-03-10. -/
theorem C8_cycle_non_overlap_witness :
    (get_theoretical_cycle_dates 25 1 2024 3 10).2
      = (get_theoretical_cycle_dates 25 0 2024 3 10).1 - 1 :=
  (C8_cycle_non_overlap 25 0 2024 3 10 (by decide)).1

/-- A configured public-holiday calendar for the locale, containing Republic
Day 2024 (2024-01-26, a Friday).  `analytics.py` imports the `holidays`
package on line 1 but never consults it, so `get_adjusted_payday` cannot avoid
any holiday of any configured calendar. -/
def sampleHolidayCalendar : List Int := [toRD 2024 1 26]

/-- C4, counterexample: with salary day 26 in January 2024 the payday
resolver returns 2024-01-26 itself — a weekday (Friday, `weekday = 4`) that is
a public holiday of the configured calendar — so the resolver does not avoid
public holidays. -/
theorem C4_payday_counterexample :
    get_adjusted_payday 2024 1 26 ∈ sampleHolidayCalendar ∧
    pyWeekday (get_adjusted_payday 2024 1 26) = 4 := by
  decide

/-- C4, amended: for every year, month and salary day, the date returned
by `get_adjusted_payday` is never a Saturday (`weekday = 5`) and never a
Sunday (`weekday = 6`); public holidays are not considered (the `holidays`
package is imported on line 1 of `analytics.py` but never used). -/
theorem C4_payday_never_weekend (year month salary_day : Int) :
    pyWeekday (get_adjusted_payday year month salary_day) ≠ 5 ∧
    pyWeekday (get_adjusted_payday year month salary_day) ≠ 6 := by
  simp only [get_adjusted_payday, pyWeekday]
  split_ifs <;> constructor <;> omega

theorem adjP_congr (y1 m1 y2 m2 sd : Int) (hy : y1 = y2) (hm : m1 = m2) :
    get_adjusted_payday y1 m1 sd = get_adjusted_payday y2 m2 sd := by
  rw [hy, hm]

theorem theoretical_zero_eq (sd ty tm td : Int) (hm1 : 1 ≤ tm) (hm2 : tm ≤ 12) :
    get_theoretical_cycle_dates sd 0 ty tm td =
      if toRD ty tm td ≥ get_adjusted_payday ty tm sd then
        (get_adjusted_payday ty tm sd,
         get_adjusted_payday (if tm = 12 then ty + 1 else ty)
           (if tm = 12 then 1 else tm + 1) sd - 1)
      else
        (get_adjusted_payday (if tm = 1 then ty - 1 else ty)
           (if tm = 1 then 12 else tm - 1) sd,
         get_adjusted_payday ty tm sd - 1) := by
  by_cases hc : toRD ty tm td ≥ get_adjusted_payday ty tm sd
  · simp only [get_theoretical_cycle_dates, if_pos hc, Prod.mk.injEq]
    by_cases h12 : tm = 12
    · simp only [if_pos h12]
      exact ⟨adjP_congr _ _ _ _ _ (by omega) (by omega),
        congrArg (fun z : Int => z - 1) (adjP_congr _ _ _ _ _ (by omega) (by omega))⟩
    · simp only [if_neg h12]
      exact ⟨adjP_congr _ _ _ _ _ (by omega) (by omega),
        congrArg (fun z : Int => z - 1) (adjP_congr _ _ _ _ _ (by omega) (by omega))⟩
  · simp only [get_theoretical_cycle_dates, if_neg hc, Prod.mk.injEq]
    by_cases h1 : tm = 1
    · simp only [if_pos h1]
      exact ⟨adjP_congr _ _ _ _ _ (by omega) (by omega),
        congrArg (fun z : Int => z - 1) (adjP_congr _ _ _ _ _ (by omega) (by omega))⟩
    · simp only [if_neg h1]
      exact ⟨adjP_congr _ _ _ _ _ (by omega) (by omega),
        congrArg (fun z : Int => z - 1) (adjP_congr _ _ _ _ _ (by omega) (by omega))⟩

/-- C1, counterexample: with salary day 1 and today = 2025-01-31 (2025-02-01
is a Saturday, so February's adjusted payday is pulled back to 2025-01-31), the
offset-0 theoretical cycle ends on 2025-01-30, strictly before today — the
current cycle does not contain today. -/
theorem C1_cycle_containment_counterexample :
    (get_theoretical_cycle_dates 1 0 2025 1 31).2 < toRD 2025 1 31 := by
  decide

/-- C1, amended: for a valid today `(ty, tm, td)` and salary day ≥ 1, the
offset-0 cycle always satisfies `start_date ≤ today`; `today ≤ end_date` holds
unconditionally when today is before this month's adjusted payday, and when
today is on/after this month's adjusted payday it holds exactly when today is
strictly before the adjusted payday of the following month (weekend adjustment
can pull that payday back to on/before today, in which case `end_date < today`). -/
theorem C1_cycle_containment_amended (sd ty tm td : Int)
    (hm1 : 1 ≤ tm) (hm2 : tm ≤ 12) (hd1 : 1 ≤ td) (hd2 : td ≤ daysInMonth ty tm)
    (hs : 1 ≤ sd) :
    (get_theoretical_cycle_dates sd 0 ty tm td).1 ≤ toRD ty tm td ∧
    (toRD ty tm td < get_adjusted_payday ty tm sd →
      toRD ty tm td ≤ (get_theoretical_cycle_dates sd 0 ty tm td).2) ∧
    (get_adjusted_payday ty tm sd ≤ toRD ty tm td →
      (toRD ty tm td ≤ (get_theoretical_cycle_dates sd 0 ty tm td).2 ↔
        toRD ty tm td < get_adjusted_payday (if tm = 12 then ty + 1 else ty)
          (if tm = 12 then 1 else tm + 1) sd)) := by
  rw [theoretical_zero_eq sd ty tm td hm1 hm2]
  by_cases hc : toRD ty tm td ≥ get_adjusted_payday ty tm sd
  · rw [if_pos hc]
    refine ⟨hc, fun hlt => absurd hc (by omega), fun _ => ?_⟩
    show toRD ty tm td ≤ get_adjusted_payday (if tm = 12 then ty + 1 else ty)
        (if tm = 12 then 1 else tm + 1) sd - 1 ↔
      toRD ty tm td < get_adjusted_payday (if tm = 12 then ty + 1 else ty)
        (if tm = 12 then 1 else tm + 1) sd
    omega
  · rw [if_neg hc]
    refine ⟨?_, fun hlt => ?_, fun hge => absurd hge (by omega)⟩
    · show get_adjusted_payday (if tm = 1 then ty - 1 else ty)
        (if tm = 1 then 12 else tm - 1) sd ≤ toRD ty tm td
      by_cases h1 : tm = 1
      · rw [if_pos h1, if_pos h1]
        subst h1
        have hb := get_adjusted_payday_bounds (ty - 1) 12 sd (by omega) (by omega) hs
        have hnm := toRD_next_month (ty - 1) 12 (by omega) (by omega)
        rw [if_pos rfl] at hnm
        have e : ty - 1 + 1 = ty := by ring
        rw [e] at hnm
        have d1 := daysInMonth_bounds (ty - 1) 12
        simp only [toRD] at hb hnm ⊢
        omega
      · rw [if_neg h1, if_neg h1]
        have hb := get_adjusted_payday_bounds ty (tm - 1) sd (by omega) (by omega) hs
        have hnm := toRD_next_month ty (tm - 1) (by omega) (by omega)
        rw [if_neg (by omega : ¬(tm - 1 = 12))] at hnm
        have e : tm - 1 + 1 = tm := by ring
        rw [e] at hnm
        have d1 := daysInMonth_bounds ty (tm - 1)
        simp only [toRD] at hb hnm ⊢
        omega
    · show toRD ty tm td ≤ get_adjusted_payday ty tm sd - 1
      omega

theorem theoretical_gap (sd offset ty tm td s e : Int) (hs1 : 1 ≤ sd)
    (h : get_theoretical_cycle_dates sd offset ty tm td = (s, e)) : s + 6 ≤ e := by
  simp only [get_theoretical_cycle_dates, Prod.mk.injEq] at h
  obtain ⟨h1, h2⟩ := h
  have hg := payday_gap sd
    ((if toRD ty tm td ≥ get_adjusted_payday ty tm sd then ty
        else if tm = 1 then ty - 1 else ty) * 12 +
      ((if toRD ty tm td ≥ get_adjusted_payday ty tm sd then tm
        else if tm = 1 then 12 else tm - 1) - 1) - offset) hs1
  omega

/-- Witness for C1 (amended) at salary day 25 and today = 2024-03-10. -/
theorem C1_cycle_containment_amended_witness :
    (get_theoretical_cycle_dates 25 0 2024 3 10).1 ≤ toRD 2024 3 10 :=
  (C1_cycle_containment_amended 25 2024 3 10 (by decide) (by decide) (by decide)
    (by decide) (by decide)).1

/-- C2 (early-salary idempotence): if the store's only income-category
transaction with stored direction `'credit'` is dated on the last day of the
theoretical cycle of the given offset, then `get_secure_cycle_dates` returns an
end date strictly before that transaction's date, and running the same
scan-and-snap step again on the truncated range leaves the end date unchanged
(no further shrinkage). -/
theorem C2_early_salary_idempotence
    (store : List Txn) (income_list : List String) (t : Txn)
    (sd offset ty tm td : Int) (hs1 : 1 ≤ sd)
    (ht : t ∈ store) (hpt : t.payment_type = "credit")
    (hcat : t.category_name ∈ income_list)
    (hdate : t.txn_date = (get_theoretical_cycle_dates sd offset ty tm td).2)
    (honly : ∀ u ∈ store, u.payment_type = "credit" → u.category_name ∈ income_list →
      u.txn_date = t.txn_date) :
    (get_secure_cycle_dates store sd offset income_list ty tm td).2 < t.txn_date ∧
    snapEnd store income_list
        (get_secure_cycle_dates store sd offset income_list ty tm td).1
        (get_secure_cycle_dates store sd offset income_list ty tm td).2
      = (get_secure_cycle_dates store sd offset income_list ty tm td).2 := by
  obtain ⟨s, e, hse⟩ : ∃ s e, get_theoretical_cycle_dates sd offset ty tm td = (s, e) :=
    ⟨_, _, rfl⟩
  have hgap : s + 6 ≤ e := theoretical_gap sd offset ty tm td s e hs1 hse
  have hne : income_list ≠ [] := List.ne_nil_of_mem hcat
  have hdate2 : t.txn_date = e := by rw [hdate, hse]
  have hsecure : get_secure_cycle_dates store sd offset income_list ty tm td
      = (s, snapEnd store income_list s e) := by
    simp only [get_secure_cycle_dates, hse, if_neg hne]
  have hscan : earlySalaryScan store income_list (e - 10) e = some e := by
    apply minDate_all_eq
    · have htf : t ∈ store.filter (earlySalaryMatch income_list (e - 10) e) := by
        rw [List.mem_filter]
        refine ⟨ht, ?_⟩
        simp only [earlySalaryMatch, Bool.and_eq_true, decide_eq_true_eq, beq_iff_eq]
        exact ⟨⟨⟨by omega, by omega⟩, hpt⟩, hcat⟩
      exact List.ne_nil_of_mem (List.mem_map_of_mem (fun u => u.txn_date) htf)
    · intro d hd
      obtain ⟨u, hu, hud⟩ := List.mem_map.mp hd
      obtain ⟨hus, hum⟩ := List.mem_filter.mp hu
      simp only [earlySalaryMatch, Bool.and_eq_true, decide_eq_true_eq, beq_iff_eq] at hum
      rw [← hud]
      rw [honly u hus hum.1.2 hum.2, hdate2]
  have hsnap : snapEnd store income_list s e = e - 1 := by
    unfold snapEnd
    rw [hscan]
    exact if_pos (by omega)
  have hscan2 : earlySalaryScan store income_list (e - 1 - 10) (e - 1) = none := by
    unfold earlySalaryScan
    have hfil : store.filter (earlySalaryMatch income_list (e - 1 - 10) (e - 1)) = [] := by
      rw [List.filter_eq_nil_iff]
      intro u hus hum
      simp only [earlySalaryMatch, Bool.and_eq_true, decide_eq_true_eq, beq_iff_eq] at hum
      have heq := honly u hus hum.1.2 hum.2
      have hle : u.txn_date ≤ e - 1 := hum.1.1.2
      omega
    rw [hfil]
    rfl
  have hsnap2 : snapEnd store income_list s (e - 1) = e - 1 := by
    unfold snapEnd
    rw [hscan2]
  rw [hsecure]
  constructor
  · show snapEnd store income_list s e < t.txn_date
    rw [hsnap, hdate2]
    omega
  · show snapEnd store income_list s (snapEnd store income_list s e)
      = snapEnd store income_list s e
    rw [hsnap, hsnap2]

/-- Witness for C2: a single 'credit' Salary transaction on the last day
(2024-03-24) of the offset-0 cycle for salary day 25 seen from 2024-03-10. -/
theorem C2_early_salary_idempotence_witness :
    (get_secure_cycle_dates
        [⟨50000, toRD 2024 3 24, "credit", "Employer", "Salary", "green"⟩]
        25 0 ["Salary"] 2024 3 10).2 < toRD 2024 3 24 :=
  (C2_early_salary_idempotence
    [⟨50000, toRD 2024 3 24, "credit", "Employer", "Salary", "green"⟩] ["Salary"]
    ⟨50000, toRD 2024 3 24, "credit", "Employer", "Salary", "green"⟩
    25 0 2024 3 10 (by decide) (by simp) rfl (by simp) (by decide)
    (by
      intro u hu h1 h2
      rw [List.mem_singleton] at hu
      rw [hu])).1

/-- C5, counterexample: with `budget_limit = 0` and `total_spend = 5 > 0`
the burn-rate classifier returns `"On Track"`, not `"Over Budget"` — the
`budget_limit <= 0` guard fires before the overspend check. -/
theorem C5_burn_rate_counterexample :
    _calculate_burn_rate_status 5 0 1 30 = "On Track" ∧
    (5 : Rat) > 0 ∧ ("On Track" : String) ≠ "Over Budget" := by
  refine ⟨?_, by norm_num, by decide⟩
  simp only [_calculate_burn_rate_status, if_pos (le_refl (0 : Rat))]

/-- C5, amended: whenever `budget_limit` is positive and `total_spend`
exceeds it, the burn-rate classifier returns `"Over Budget"`; whenever
`budget_limit ≤ 0` (zero or negative) it returns `"On Track"` regardless of
spend. -/
theorem C5_burn_rate_amended (total_spend budget_limit : Rat)
    (days_passed days_in_cycle : Int) :
    (0 < budget_limit → budget_limit < total_spend →
      _calculate_burn_rate_status total_spend budget_limit days_passed days_in_cycle
        = "Over Budget") ∧
    (budget_limit ≤ 0 →
      _calculate_burn_rate_status total_spend budget_limit days_passed days_in_cycle
        = "On Track") := by
  constructor
  · intro h1 h2
    simp only [_calculate_burn_rate_status, if_neg (by linarith : ¬budget_limit ≤ 0)]
    rw [if_pos (by linarith : budget_limit - total_spend < 0)]
  · intro h1
    simp only [_calculate_burn_rate_status, if_pos h1]

/-- Witness for C5 (amended) at spend 100, budget 50. -/
theorem C5_burn_rate_amended_witness :
    _calculate_burn_rate_status 100 50 10 30 = "Over Budget" :=
  (C5_burn_rate_amended 100 50 10 30).1 (by norm_num) (by norm_num)

/-- C6, counterexample: on day zero (`days_passed = 0`) with
`total_spend = 100`, the health report's projected spend is `0`, not the
unchanged `total_spend = 100` the claim requires. -/
theorem C6_projected_spend_counterexample :
    projected_spend_calc 100 0 30 = 0 ∧ (0 : Rat) ≠ 100 := by
  constructor
  · simp [projected_spend_calc]
  · norm_num

/-- C6, amended: `projected_spend` equals
`(total_spend / days_passed) × days_in_cycle` when `days_passed > 0` and
`days_in_cycle > 0`, and equals `0` (not `total_spend`) otherwise — in
particular on day zero of a cycle.  In the positive case it satisfies
`projected × days_passed = total_spend × days_in_cycle`. -/
theorem C6_projected_spend_amended (total_spend : Rat) (days_passed days_in_cycle : Int) :
    (0 < days_passed → 0 < days_in_cycle →
      projected_spend_calc total_spend days_passed days_in_cycle
          = total_spend / (days_passed : Rat) * (days_in_cycle : Rat) ∧
      projected_spend_calc total_spend days_passed days_in_cycle * (days_passed : Rat)
          = total_spend * (days_in_cycle : Rat)) ∧
    (¬(0 < days_passed ∧ 0 < days_in_cycle) →
      projected_spend_calc total_spend days_passed days_in_cycle = 0) := by
  constructor
  · intro h1 h2
    have hne : (days_passed : Rat) ≠ 0 := by
      exact_mod_cast (by omega : days_passed ≠ 0)
    constructor
    · simp only [projected_spend_calc, if_pos (And.intro h1 h2)]
    · simp only [projected_spend_calc, if_pos (And.intro h1 h2)]
      field_simp
  · intro h
    simp only [projected_spend_calc, if_neg h]

/-- Witness for C6 (amended): spec scenario 45000 spent, 20 of 30 days. -/
theorem C6_projected_spend_amended_witness :
    projected_spend_calc 45000 20 30 = 45000 / (20 : Rat) * 30 :=
  ((C6_projected_spend_amended 45000 20 30).1 (by norm_num) (by norm_num)).1

/-- C9 (safe-spend non-negativity): `safe_to_spend_daily` equals
`budget_remaining / days_left` when `days_left > 0` and `budget_remaining > 0`
and equals `0` otherwise (in particular for `days_left = 0` and for negative
remaining budget); it is never negative, and division only happens with a
positive denominator (so the value is always a finite rational). -/
theorem C9_safe_spend (budget_remaining : Rat) (days_left : Int) :
    0 ≤ safe_to_spend_daily budget_remaining days_left ∧
    (days_left > 0 → budget_remaining > 0 →
      safe_to_spend_daily budget_remaining days_left
        = budget_remaining / (days_left : Rat)) ∧
    (days_left ≤ 0 ∨ budget_remaining ≤ 0 →
      safe_to_spend_daily budget_remaining days_left = 0) := by
  refine ⟨?_, fun h1 h2 => ?_, fun h => ?_⟩
  · unfold safe_to_spend_daily
    split_ifs with h
    · exact le_of_lt (div_pos h.2 (by exact_mod_cast h.1))
    · exact le_refl 0
  · simp only [safe_to_spend_daily, if_pos (And.intro h1 h2)]
  · have hn : ¬(days_left > 0 ∧ budget_remaining > 0) := by
      rcases h with h | h
      · exact fun hc => absurd hc.1 (by omega)
      · exact fun hc => absurd hc.2 (by linarith)
    simp only [safe_to_spend_daily, if_neg hn]

/-- Witness for C9 at remaining budget 5000 over 10 days. -/
theorem C9_safe_spend_witness :
    safe_to_spend_daily 5000 10 = 5000 / (10 : Rat) :=
  (C9_safe_spend 5000 10).2.1 (by norm_num) (by norm_num)

/-- C7, counterexample: a lone CREDIT refund of 5 in category `"Food"`
(no prior DEBIT in the cycle) is subtracted from `total_spend` (which becomes
`-5`) but the category map stays empty — no `"Food"` bucket exists to be
decremented, so the amount is *not* subtracted from the category bucket. -/
theorem C7_credit_refund_counterexample :
    (_process_transaction_aggregates [⟨5, 10, "CREDIT", "WebStore", "Food", "red"⟩]
        1 [] []).total_spend = -5 ∧
    (_process_transaction_aggregates [⟨5, 10, "CREDIT", "WebStore", "Food", "red"⟩]
        1 [] []).category_map = [] := by
  have h1 : pyUpper "CREDIT" = "CREDIT" := by decide
  have h2 : ("CREDIT" : String) ≠ "" := by decide
  have h3 : ("Food" : String) ∉ ([] : List String) := by decide
  have h4 : ("CREDIT" : String) ≠ "DEBIT" := by decide
  constructor <;>
    simp [_process_transaction_aggregates, processTxn, h1, h2, h3, h4, catSubCredit]

/-- C7, amended: for every prior transaction list and every non-ignored,
non-income CREDIT transaction, the amount is subtracted from `total_spend` and
from the day-indexed trend entry `(txn_date - start).days + 1`; the category
bucket is decremented only if it already exists (the map is untouched — in
particular no bucket is created — when the category has no entry yet). -/
theorem C7_credit_refund_amended (prior : List Txn) (t : Txn) (cycle_start : Int)
    (ignored_cats income_cats : List String)
    (hig : t.category_name ∉ ignored_cats) (hinc : t.category_name ∉ income_cats)
    (hpt : pyUpper t.payment_type = "CREDIT") :
    (_process_transaction_aggregates (prior ++ [t]) cycle_start ignored_cats
        income_cats).total_spend
      = (_process_transaction_aggregates prior cycle_start ignored_cats
          income_cats).total_spend - t.amount ∧
    trendGet (_process_transaction_aggregates (prior ++ [t]) cycle_start ignored_cats
        income_cats).daily_trend (t.txn_date - cycle_start + 1)
      = trendGet (_process_transaction_aggregates prior cycle_start ignored_cats
          income_cats).daily_trend (t.txn_date - cycle_start + 1) - t.amount ∧
    catFind (_process_transaction_aggregates (prior ++ [t]) cycle_start ignored_cats
        income_cats).category_map t.category_name
      = (catFind (_process_transaction_aggregates prior cycle_start ignored_cats
          income_cats).category_map t.category_name).map
          (fun p => (p.1 - t.amount, p.2)) := by
  have hstep : _process_transaction_aggregates (prior ++ [t]) cycle_start ignored_cats
      income_cats
      = processTxn cycle_start ignored_cats income_cats
          (_process_transaction_aggregates prior cycle_start ignored_cats income_cats) t := by
    unfold _process_transaction_aggregates
    rw [List.foldl_append, List.foldl_cons, List.foldl_nil]
  have hne : t.payment_type ≠ "" := by
    intro h
    rw [h] at hpt
    exact absurd hpt (by decide)
  rw [hstep]
  simp only [processTxn, if_neg hne, hpt, if_neg hig, if_neg hinc,
    if_neg (show ¬(("CREDIT" : String) = "DEBIT") by decide), eq_self_iff_true, if_true]
  refine ⟨trivial, ?_, ?_⟩
  · rw [trendGet_trendAdd_self]
    ring
  · exact catFind_catSubCredit_self _ _ _

/-- Witness for C7 (amended): the counterexample transaction appended to an
empty prior list. -/
theorem C7_credit_refund_amended_witness :
    (_process_transaction_aggregates ([] ++ [⟨5, 10, "CREDIT", "WebStore", "Food", "red"⟩])
        1 [] []).total_spend
      = (_process_transaction_aggregates [] 1 [] []).total_spend - 5 :=
  (C7_credit_refund_amended [] ⟨5, 10, "CREDIT", "WebStore", "Food", "red"⟩ 1 [] []
    (by decide) (by decide) (by decide)).1

/-- C10 (case-sensitivity mismatch): a transaction stored with direction
`'CREDIT'` in income category `"Salary"` is counted as income by the
aggregator (`total_income = 50000`), yet the early-salary guard — whose SQL
filter compares `payment_type == 'credit'` exactly — never matches it, so the
cycle end is not truncated (`snapEnd` returns the end date unchanged), while
the same transaction stored as `'credit'` does trigger truncation. -/
theorem C10_case_sensitivity_mismatch :
    (_process_transaction_aggregates
        [⟨50000, 24, "CREDIT", "Employer", "Salary", "green"⟩] 1 [] ["Salary"]).total_income
      = 50000 ∧
    snapEnd [⟨50000, 24, "CREDIT", "Employer", "Salary", "green"⟩] ["Salary"] 1 25 = 25 ∧
    snapEnd [⟨50000, 24, "credit", "Employer", "Salary", "green"⟩] ["Salary"] 1 25 = 23 := by
  have h1 : pyUpper "CREDIT" = "CREDIT" := by decide
  have h2 : ("CREDIT" : String) ≠ "" := by decide
  have h3 : ("Salary" : String) ∈ ["Salary"] := by decide
  have h4 : ("Salary" : String) ∉ ([] : List String) := by decide
  refine ⟨?_, by decide, by decide⟩
  simp [_process_transaction_aggregates, processTxn, h1, h2, h3, h4]
